import Mathlib

/-!
Shallow embedding of the SINV repository's PDIV local-map algorithm
(`src/sinv/algorithms/pdiv/pdiv_localmap.py`) together with the worker-count
validation of `algorithms/pdiv_parallel.py`, and proofs about the
specification's claims.

Modelling conventions:
* numpy arrays of shape `blocksize x blocksize` become `Matrix (Fin b) (Fin b) α`
  over an arbitrary field `α` (exact arithmetic stands in for floating point);
* a worker's partition of `nblocks_local = m + 1` block rows becomes a matrix
  indexed by `Fin (m+1) × Fin b` (block index, intra-block index);
* Python exceptions are modelled with an explicit `Except PyError` monad;
* the MPI point-to-point exchanges of `get_U` are modelled by reading the
  producer rank's state directly: the messages only ever copy those values;
* Python lists of 12 blocks (`l_M`, `l_C`) become 12-field structures, and the
  sequential in-place item assignments of the update rules become sequential
  record updates (each later right-hand side sees the earlier assignments,
  exactly as in the source).
-/

namespace SINV

/-- Python exception kinds raised by the embedded code paths:
`ValueError` (explicit raise), `TypeError` (subscripting / unpacking `None`),
`numpy.linalg.LinAlgError` (singular matrix passed to `np.linalg.inv`). -/
inductive PyError : Type where
  | valueError
  | typeError
  | linAlgError
deriving DecidableEq

/-- A dense `blocksize × blocksize` block (the atomic unit of the algorithm). -/
abbrev Mat (b : Nat) (α : Type) := Matrix (Fin b) (Fin b) α

/-- The `2·blocksize × 2·blocksize` J-factor; the two copies of `Fin b` are the
row/column ranges `0:blocksize` and `blocksize:2*blocksize` of the source. -/
abbrev JMat (b : Nat) (α : Type) := Matrix (Fin b ⊕ Fin b) (Fin b ⊕ Fin b) α

/-- A worker's partition: a dense square matrix of `m+1` block rows/columns of
blocksize `b`, indexed by (block row, row within block). -/
abbrev Part (m b : Nat) (α : Type) := Matrix (Fin (m+1) × Fin b) (Fin (m+1) × Fin b) α

variable {α : Type} [Field α] [DecidableEq α] {m b : Nat}

/-- Embedding of `np.linalg.inv`: the dense inverse `det⁻¹ • adjugate`;
numpy raises `LinAlgError` when the input is singular. -/
def np_linalg_inv {n : Type} [Fintype n] [DecidableEq n] (A : Matrix n n α) :
    Except PyError (Matrix n n α) :=
  if A.det = 0 then .error .linAlgError else .ok (A.det⁻¹ • A.adjugate)

/-- Embedding of `invert_partition` (pdiv_localmap.py lines 86-104): full dense
inversion of the local partition by `np.linalg.inv`. -/
def invert_partition (K_local : Part m b α) : Except PyError (Part m b α) :=
  np_linalg_inv K_local

/-- The 12-entry MatrixMap list `l_M`; field `mi` is the Python slot `l_M[i]`. -/
structure MMap (b : Nat) (α : Type) where
  m0 : Mat b α
  m1 : Mat b α
  m2 : Mat b α
  m3 : Mat b α
  m4 : Mat b α
  m5 : Mat b α
  m6 : Mat b α
  m7 : Mat b α
  m8 : Mat b α
  m9 : Mat b α
  m10 : Mat b α
  m11 : Mat b α

/-- The 12-entry CrossMap list `l_C`; field `ci` is the Python slot `l_C[i]`. -/
structure CMap (b : Nat) (α : Type) where
  c0 : Mat b α
  c1 : Mat b α
  c2 : Mat b α
  c3 : Mat b α
  c4 : Mat b α
  c5 : Mat b α
  c6 : Mat b α
  c7 : Mat b α
  c8 : Mat b α
  c9 : Mat b α
  c10 : Mat b α
  c11 : Mat b α

/-- The six U factors returned by `get_U` (pdiv_localmap.py line 340), in list
order: `l_U = [UUR, ULL, ULR, DUL, DUR, DLL]`, so `l_U[0] = UUR`, `l_U[1] = ULL`,
`l_U[2] = ULR`, `l_U[3] = DUL`, `l_U[4] = DUR`, `l_U[5] = DLL`. -/
structure UFactors (b : Nat) (α : Type) where
  UUR : Mat b α
  ULL : Mat b α
  ULR : Mat b α
  DUL : Mat b α
  DUR : Mat b α
  DLL : Mat b α

/-- Seed of MatrixMap slot `i` (pdiv_localmap.py lines 130-135): identity for
`i ∈ {0, 3, 4, 7}`, zero block otherwise. -/
def matrixmap_seed (b : Nat) (α : Type) [Field α] (i : Nat) : Mat b α :=
  if i = 0 ∨ i = 3 ∨ i = 4 ∨ i = 7 then 1 else 0

/-- Embedding of `initialize_matrixmaps` (pdiv_localmap.py lines 107-137); the
`K_local` argument of the source is used only for its dtype, which here is the
type parameter `α`. -/
def initialize_matrixmaps (b : Nat) (α : Type) [Field α] : MMap b α :=
  ⟨matrixmap_seed b α 0, matrixmap_seed b α 1, matrixmap_seed b α 2,
   matrixmap_seed b α 3, matrixmap_seed b α 4, matrixmap_seed b α 5,
   matrixmap_seed b α 6, matrixmap_seed b α 7, matrixmap_seed b α 8,
   matrixmap_seed b α 9, matrixmap_seed b α 10, matrixmap_seed b α 11⟩

/-- Embedding of `initialize_crossmaps` (pdiv_localmap.py lines 140-163): a
12-entry list of zero blocks. -/
def initialize_crossmaps (b : Nat) (α : Type) [Field α] : CMap b α :=
  ⟨0, 0, 0, 0, 0, 0, 0, 0, 0, 0, 0, 0⟩

/-- Block `(p, q)` of a partition: rows `p*blocksize : (p+1)*blocksize`,
columns `q*blocksize : (q+1)*blocksize` of the dense array. -/
def blk (K : Part m b α) (p q : Fin (m+1)) : Mat b α :=
  Matrix.of fun i j => K (p, i) (q, j)

/-- Embedding of `produce_UUR_ULL_ULR` (pdiv_localmap.py lines 343-383).
`K_local[0:blocksize, start_lastblock:end_lastblock]` is `blk K_local 0 (Fin.last m)`
and so on for the other corner slices. -/
def produce_UUR_ULL_ULR (K_local : Part m b α) (l_M : MMap b α) :
    Mat b α × Mat b α × Mat b α :=
  let first : Fin (m+1) := 0
  let last : Fin (m+1) := Fin.last m
  let UUR := l_M.m0 * blk K_local first last + l_M.m1 * blk K_local last last
  let ULL := blk K_local last first * l_M.m4 + blk K_local last last * l_M.m5
  let ULR := blk K_local last last
      + blk K_local last first * l_M.m8 * blk K_local first last
      + blk K_local last first * l_M.m9 * blk K_local last last
      + blk K_local last last * l_M.m10 * blk K_local first last
      + blk K_local last last * l_M.m11 * blk K_local last last
  (UUR, ULL, ULR)

/-- Embedding of `produce_DUL_DUR_DLL` (pdiv_localmap.py lines 386-427). -/
def produce_DUL_DUR_DLL (K_local : Part m b α) (l_M : MMap b α) :
    Mat b α × Mat b α × Mat b α :=
  let first : Fin (m+1) := 0
  let last : Fin (m+1) := Fin.last m
  let DUL := blk K_local first first
      + blk K_local first first * l_M.m8 * blk K_local first first
      + blk K_local first first * l_M.m9 * blk K_local last first
      + blk K_local first last * l_M.m10 * blk K_local first first
      + blk K_local first last * l_M.m11 * blk K_local last first
  let DUR := blk K_local first first * l_M.m2 + blk K_local first last * l_M.m3
  let DLL := l_M.m6 * blk K_local first first + l_M.m7 * blk K_local last first
  (DUL, DUR, DLL)

/-- The coupling matrix assembled by `get_J` (pdiv_localmap.py lines 453-458)
before it is inverted: identity blocks on the diagonal,
`J[0:blocksize, blocksize:2*blocksize] = - l_U[3] @ Bl_mid` where `l_U[3] = DUL`,
and `J[blocksize:2*blocksize, 0:blocksize] = - l_U[2] @ Bu_mid` where
`l_U[2] = ULR`. -/
def get_J_assembled (l_U : UFactors b α) (Bu_mid Bl_mid : Mat b α) : JMat b α :=
  Matrix.fromBlocks 1 (-(l_U.DUL * Bl_mid)) (-(l_U.ULR * Bu_mid)) 1

/-- Embedding of `get_J` (pdiv_localmap.py lines 430-462): assemble the coupling
matrix and invert it with `np.linalg.inv`. -/
def get_J (l_U : UFactors b α) (Bu_mid Bl_mid : Mat b α) :
    Except PyError (JMat b α) :=
  np_linalg_inv (get_J_assembled l_U Bu_mid Bl_mid)

/-- Embedding of `get_nextprocess_matrixmap` (pdiv_localmap.py lines 493-497):
the body is `pass`, so the call returns `None`. -/
def get_nextprocess_matrixmap (l_M : MMap b α) (middle_process : Nat) :
    Option (MMap b α) :=
  none

/-- Embedding of `update_crossmap_upper` (pdiv_localmap.py lines 500-529).
The partner map `l_M_ip1` arrives as an `Option` because the caller obtains it
from `get_nextprocess_matrixmap`; when it is `None`, the first subscript
`M3_ip1 = l_M_ip1[2]` raises `TypeError`.  When it is a proper map the rule adds
its bilinear products into slots 0-7 (the slice `J[0:blocksize,
blocksize:2*blocksize]` resolves the module-global `blocksize` of the
`__main__` harness). -/
def update_crossmap_upper (l_M : MMap b α) (l_M_ip1 : Option (MMap b α))
    (l_C : CMap b α) (Bu_mid : Mat b α) (J : JMat b α) :
    Except PyError (CMap b α) :=
  match l_M_ip1 with
  | none => .error .typeError
  | some mip1 =>
    let J12 := J.toBlocks₁₂
    .ok { l_C with
      c0 := l_C.c0 + l_M.m2 * Bu_mid * J12 * mip1.m6
      c1 := l_C.c1 + l_M.m2 * Bu_mid * J12 * mip1.m7
      c2 := l_C.c2 + l_M.m3 * Bu_mid * J12 * mip1.m6
      c3 := l_C.c3 + l_M.m3 * Bu_mid * J12 * mip1.m7
      c4 := l_C.c4 + mip1.m2 * Bu_mid * J12 * l_M.m6
      c5 := l_C.c5 + mip1.m2 * Bu_mid * J12 * l_M.m7
      c6 := l_C.c6 + mip1.m3 * Bu_mid * J12 * l_M.m6
      c7 := l_C.c7 + mip1.m3 * Bu_mid * J12 * l_M.m7 }

/-- Embedding of `update_crossmap_middle` (pdiv_localmap.py lines 532-563). -/
def update_crossmap_middle (l_M : MMap b α) (l_M_ip1 : Option (MMap b α))
    (l_C : CMap b α) (Bu_mid Bl_mid : Mat b α) (J : JMat b α) :
    Except PyError (CMap b α) :=
  match l_M_ip1 with
  | none => .error .typeError
  | some mip1 =>
    let J11 := J.toBlocks₁₁
    let J22 := J.toBlocks₂₂
    .ok { l_C with
      c0 := l_C.c0 + l_M.m2 * Bu_mid * J11 * mip1.m0
      c1 := l_C.c1 + l_M.m2 * Bu_mid * J11 * mip1.m1
      c2 := l_C.c2 + l_M.m3 * Bu_mid * J11 * mip1.m0
      c3 := l_C.c3 + l_M.m3 * Bu_mid * J11 * mip1.m1
      c4 := l_C.c4 + mip1.m4 * Bl_mid * J22 * l_M.m6
      c5 := l_C.c5 + mip1.m4 * Bl_mid * J22 * l_M.m7
      c6 := l_C.c6 + mip1.m5 * Bl_mid * J22 * l_M.m6
      c7 := l_C.c7 + mip1.m5 * Bl_mid * J22 * l_M.m7 }

/-- Embedding of `update_crossmap_lower` (pdiv_localmap.py lines 566-595).
Note that slot 1 receives the same expression as slot 0
(`M5 @ Bl_mid @ J21 @ M1_ip1`, the line carrying the source comment
"MAY BE WRONG HERE"). -/
def update_crossmap_lower (l_M : MMap b α) (l_M_ip1 : Option (MMap b α))
    (l_C : CMap b α) (Bl_mid : Mat b α) (J : JMat b α) :
    Except PyError (CMap b α) :=
  match l_M_ip1 with
  | none => .error .typeError
  | some mip1 =>
    let J21 := J.toBlocks₂₁
    .ok { l_C with
      c0 := l_C.c0 + l_M.m4 * Bl_mid * J21 * mip1.m0
      c1 := l_C.c1 + l_M.m4 * Bl_mid * J21 * mip1.m0
      c2 := l_C.c2 + l_M.m5 * Bl_mid * J21 * mip1.m0
      c3 := l_C.c3 + l_M.m5 * Bl_mid * J21 * mip1.m1
      c4 := l_C.c4 + mip1.m4 * Bl_mid * J21 * l_M.m0
      c5 := l_C.c5 + mip1.m4 * Bl_mid * J21 * l_M.m1
      c6 := l_C.c6 + mip1.m5 * Bl_mid * J21 * l_M.m0
      c7 := l_C.c7 + mip1.m5 * Bl_mid * J21 * l_M.m1 }

/-- Embedding of `update_crossmap` (pdiv_localmap.py lines 465-490): fetch the
partner's matrix map (always `None`, the function is stubbed) and dispatch on
the rank relative to the middle process. -/
def update_crossmap (l_C : CMap b α) (l_M : MMap b α) (Bu_mid Bl_mid : Mat b α)
    (J : JMat b α) (comm_rank middle_process : Nat) :
    Except PyError (CMap b α) :=
  let l_M_ip1 := get_nextprocess_matrixmap l_M middle_process
  if comm_rank < middle_process then
    update_crossmap_upper l_M l_M_ip1 l_C Bu_mid J
  else if comm_rank = middle_process then
    update_crossmap_middle l_M l_M_ip1 l_C Bu_mid Bl_mid J
  else
    update_crossmap_lower l_M l_M_ip1 l_C Bl_mid J

/-- Embedding of `update_matrixmap_upper` (pdiv_localmap.py lines 651-709).
The Python rule assigns the list slots in the order written here, so every
later right-hand side reads the values already written earlier in the same
call; the sequential record updates reproduce that exactly. -/
def update_matrixmap_upper (l_M : MMap b α)
    (UUR DUR ULL DLL Bu_mid Bl_mid J11 J12 J22 : Mat b α) : MMap b α :=
  let l_M := { l_M with m0 := l_M.m0 + UUR * Bu_mid * J12 * l_M.m6 }
  let l_M := { l_M with m1 := l_M.m1 + UUR * Bu_mid * J12 * l_M.m7 }
  let l_M := { l_M with m2 := l_M.m2 * Bu_mid * J11 * DUR }
  let l_M := { l_M with m3 := l_M.m3 * Bu_mid * J11 * DUR }
  let l_M := { l_M with m4 := l_M.m4 + l_M.m2 * Bu_mid * J12 * ULL }
  let l_M := { l_M with m5 := l_M.m5 + l_M.m3 * Bu_mid * J12 * ULL }
  let l_M := { l_M with m6 := DLL * Bl_mid * J22 * l_M.m6 }
  let l_M := { l_M with m7 := DLL * Bl_mid * J22 * l_M.m7 }
  let l_M := { l_M with m8 := l_M.m8 + l_M.m2 * Bu_mid * J12 * l_M.m6 }
  let l_M := { l_M with m9 := l_M.m9 + l_M.m2 * Bu_mid * J12 * l_M.m7 }
  let l_M := { l_M with m10 := l_M.m10 + l_M.m3 * Bu_mid * J12 * l_M.m6 }
  let l_M := { l_M with m11 := l_M.m11 + l_M.m3 * Bu_mid * J12 * l_M.m7 }
  l_M

/-- Embedding of `update_matrixmap_lower` (pdiv_localmap.py lines 712-770),
with the same sequential in-place semantics (in particular `l_M[5]` reads the
`l_M[4]` assigned on the preceding line). -/
def update_matrixmap_lower (l_M : MMap b α)
    (UUR DUR ULL DLL Bu_mid Bl_mid J11 J21 J22 : Mat b α) : MMap b α :=
  let l_M := { l_M with m0 := UUR * Bu_mid * J11 * l_M.m0 }
  let l_M := { l_M with m1 := UUR * Bu_mid * J11 * l_M.m1 }
  let l_M := { l_M with m2 := l_M.m2 + l_M.m4 * Bl_mid * J21 * DUR }
  let l_M := { l_M with m3 := l_M.m3 + l_M.m5 * Bl_mid * J21 * DUR }
  let l_M := { l_M with m4 := l_M.m5 * Bl_mid * J22 * ULL }
  let l_M := { l_M with m5 := l_M.m4 * Bl_mid * J22 * ULL }
  let l_M := { l_M with m6 := l_M.m6 + DLL * Bl_mid * J21 * l_M.m0 }
  let l_M := { l_M with m7 := l_M.m7 + DLL * Bl_mid * J21 * l_M.m1 }
  let l_M := { l_M with m8 := l_M.m8 + l_M.m4 * Bl_mid * J21 * l_M.m0 }
  let l_M := { l_M with m9 := l_M.m9 + l_M.m4 * Bl_mid * J21 * l_M.m1 }
  let l_M := { l_M with m10 := l_M.m10 + l_M.m5 * Bl_mid * J21 * l_M.m0 }
  let l_M := { l_M with m11 := l_M.m11 + l_M.m5 * Bl_mid * J21 * l_M.m1 }
  l_M

/-- Embedding of `update_matrixmap` (pdiv_localmap.py lines 598-648): slice the
J factor and dispatch on the rank relative to the middle process. -/
def update_matrixmap (l_M : MMap b α) (l_U : UFactors b α)
    (Bu_mid Bl_mid : Mat b α) (J : JMat b α) (comm_rank middle_process : Nat) :
    MMap b α :=
  let UUR := l_U.UUR
  let DUR := l_U.DUR
  let ULL := l_U.ULL
  let DLL := l_U.DLL
  let J11 := J.toBlocks₁₁
  let J12 := J.toBlocks₁₂
  let J21 := J.toBlocks₂₁
  let J22 := J.toBlocks₂₂
  if comm_rank ≤ middle_process then
    update_matrixmap_upper l_M UUR DUR ULL DLL Bu_mid Bl_mid J11 J12 J22
  else
    update_matrixmap_lower l_M UUR DUR ULL DLL Bu_mid Bl_mid J11 J21 J22

/-- Embedding of `get_middle_process` (pdiv_localmap.py lines 233-252):
`middle_process = starting_process - 1 + ceil((ending_process - starting_process) / 2)`.
In every use `ending_process > starting_process`, so the value is nonnegative
and equals `starting_process + (ending_process - starting_process + 1) / 2 - 1`
in natural-number arithmetic (the float division and `math.ceil` are exact for
the process counts at hand). -/
def get_middle_process (starting_process ending_process : Nat) : Nat :=
  starting_process + (ending_process - starting_process + 1) / 2 - 1

/-- The per-rank state a worker owns while `pdiv_localmap` runs: its inverted
partition and its MatrixMap and CrossMap sets. -/
structure RankState (m b : Nat) (α : Type) where
  K : Part m b α
  M : MMap b α
  C : CMap b α

/-- Embedding of `get_U` (pdiv_localmap.py lines 255-340): `UUR, ULL, ULR` are
produced on the middle process and `DUL, DUR, DLL` on the process after it,
then sent to every rank of the group; the point-to-point messages only copy
the produced values, so they are read from the producers' states directly.
A crashed producer (error state) leaves the receiver without a matching send,
which is modelled by propagating the producer's error. -/
def get_U_system (S : Nat → Except PyError (RankState m b α))
    (middle_process : Nat) : Except PyError (UFactors b α) :=
  match S middle_process with
  | .error e => .error e
  | .ok smid =>
    match S (middle_process + 1) with
    | .error e => .error e
    | .ok smid1 =>
      let (UUR, ULL, ULR) := produce_UUR_ULL_ULR smid.K smid.M
      let (DUL, DUR, DLL) := produce_DUL_DUR_DLL smid1.K smid1.M
      .ok ⟨UUR, ULL, ULR, DUL, DUR, DLL⟩

/-- One reduction step of `update_maps` (pdiv_localmap.py lines 166-230) as seen
by rank `comm_rank`: the loop over `active_process` selects exactly the group
`[starting_process, ending_process]` containing the rank
(`starting_process = comm_rank / stride * stride`); within it the rank computes
the U factors, the bridge pair of the middle process, the J factor, and updates
its CrossMap (with the partner map, stubbed to `None`) and then its MatrixMap. -/
def update_maps_rank (S : Nat → Except PyError (RankState m b α))
    (Bu_list Bl_list : Nat → Mat b α) (current_step comm_rank : Nat) :
    Except PyError (RankState m b α) :=
  match S comm_rank with
  | .error e => .error e
  | .ok s =>
    let process_stride := 2 ^ current_step
    let starting_process := comm_rank / process_stride * process_stride
    let ending_process := starting_process + process_stride - 1
    let middle_process := get_middle_process starting_process ending_process
    match get_U_system S middle_process with
    | .error e => .error e
    | .ok l_U =>
      let Bu_mid := Bu_list middle_process
      let Bl_mid := Bl_list middle_process
      match get_J l_U Bu_mid Bl_mid with
      | .error e => .error e
      | .ok J =>
        match update_crossmap s.C s.M Bu_mid Bl_mid J comm_rank middle_process with
        | .error e => .error e
        | .ok C' =>
          .ok ⟨s.K, update_matrixmap s.M l_U Bu_mid Bl_mid J comm_rank middle_process, C'⟩

/-- The reduction loop `for current_step in range(1, n_reduction_steps + 1)`
(pdiv_localmap.py lines 79-80), evolving all ranks' states in lockstep;
`run_reduction Bu Bl k n S` runs steps `k, k+1, ..., k+n-1` starting from `S`. -/
def run_reduction (Bu_list Bl_list : Nat → Mat b α) :
    Nat → Nat → (Nat → Except PyError (RankState m b α)) →
    Nat → Except PyError (RankState m b α)
  | _, 0, S => S
  | k, n+1, S =>
    run_reduction Bu_list Bl_list (k+1) n
      (fun r => update_maps_rank S Bu_list Bl_list k r)

/-- Initial per-rank states of `pdiv_localmap` (lines 73-76): the locally
inverted partition and the freshly seeded MatrixMap and CrossMap sets. -/
def initial_states (K_locals : Nat → Part m b α) :
    Nat → Except PyError (RankState m b α) := fun q =>
  match invert_partition (K_locals q) with
  | .error e => .error e
  | .ok Ki => .ok ⟨Ki, initialize_matrixmaps b α, initialize_crossmaps b α⟩

/-- Embedding of `pdiv_localmap` (pdiv_localmap.py lines 26-83) for the worker
of rank `comm_rank` in a world of `comm_size` ranks: invert the local
partition, initialize the maps, run `int(math.log2(comm_size))` reduction
steps (`Nat.log2` equals that truncation), and return the partition together
with the two bridge lists (`produce_partition` is commented out in the source,
so the partition and the bridge lists are returned as they stand).  The other
ranks' partitions appear as input because the reduction steps read the middle
ranks' data through MPI messages. -/
def pdiv_localmap (K_locals : Nat → Part m b α)
    (l_upperbridges l_lowerbridges : Nat → Mat b α)
    (comm_size comm_rank : Nat) :
    Except PyError (Part m b α × (Nat → Mat b α) × (Nat → Mat b α)) :=
  let n_reduction_steps := Nat.log2 comm_size
  let Sf := run_reduction l_upperbridges l_lowerbridges 1 n_reduction_steps
    (initial_states K_locals)
  match Sf comm_rank with
  | .error e => .error e
  | .ok s => .ok (s.K, l_upperbridges, l_lowerbridges)

/-- Embedding of the check `math.log2(comm_size).is_integer()` used by `pdiv`
(pdiv_parallel.py line 178).  For a positive count the float `log2` is integral
exactly when the count is a power of two (exact for all realistic process
counts); `math.log2(0)` would raise, and an MPI world never has size 0. -/
def log2_is_integer (n : Nat) : Bool :=
  n != 0 && 2 ^ Nat.log2 n == n

/-- Embedding of `pdiv` (pdiv_parallel.py lines 163-208) up to its control
flow: the worker-count validation runs first and raises `ValueError` for a
count that is not a power of two, before any partitioning, communication or
numeric work.  Past the check, every helper it calls is a stub whose body is
`pass`, so `K_local, B_local, ... = allocate_memory_for_partitions(...)`
unpacks `None` and raises `TypeError`. -/
def pdiv (comm_size : Nat) : Except PyError Unit :=
  if !(log2_is_integer comm_size) then .error .valueError
  else .error .typeError

/-- Modelled from the spec: `pdiv_utils.check_multiprocessing`, which the
`pdiv_localmap` driver (pdiv_localmap.py line 794) calls before partitioning;
its module is not under src/.  Spec section 4.1 and section 7: a worker count
that is not a power of two is rejected with a configuration error before any
numeric work or communication. -/
def check_multiprocessing (comm_size : Nat) : Except PyError Unit :=
  if log2_is_integer comm_size then .ok () else .error .valueError

/-- Modelled from the spec: section 9's two-phase reimplementation of
`update_matrixmap_upper` in which every right-hand side is evaluated from the
pre-update map values (written into a separate buffer, then swapped). -/
def update_matrixmap_upper_prestate (l_M : MMap b α)
    (UUR DUR ULL DLL Bu_mid Bl_mid J11 J12 J22 : Mat b α) : MMap b α :=
  { m0 := l_M.m0 + UUR * Bu_mid * J12 * l_M.m6
    m1 := l_M.m1 + UUR * Bu_mid * J12 * l_M.m7
    m2 := l_M.m2 * Bu_mid * J11 * DUR
    m3 := l_M.m3 * Bu_mid * J11 * DUR
    m4 := l_M.m4 + l_M.m2 * Bu_mid * J12 * ULL
    m5 := l_M.m5 + l_M.m3 * Bu_mid * J12 * ULL
    m6 := DLL * Bl_mid * J22 * l_M.m6
    m7 := DLL * Bl_mid * J22 * l_M.m7
    m8 := l_M.m8 + l_M.m2 * Bu_mid * J12 * l_M.m6
    m9 := l_M.m9 + l_M.m2 * Bu_mid * J12 * l_M.m7
    m10 := l_M.m10 + l_M.m3 * Bu_mid * J12 * l_M.m6
    m11 := l_M.m11 + l_M.m3 * Bu_mid * J12 * l_M.m7 }

/-- Modelled from the spec: section 9's two-phase reimplementation of
`update_matrixmap_lower` with every right-hand side evaluated from the
pre-update map values. -/
def update_matrixmap_lower_prestate (l_M : MMap b α)
    (UUR DUR ULL DLL Bu_mid Bl_mid J11 J21 J22 : Mat b α) : MMap b α :=
  { m0 := UUR * Bu_mid * J11 * l_M.m0
    m1 := UUR * Bu_mid * J11 * l_M.m1
    m2 := l_M.m2 + l_M.m4 * Bl_mid * J21 * DUR
    m3 := l_M.m3 + l_M.m5 * Bl_mid * J21 * DUR
    m4 := l_M.m5 * Bl_mid * J22 * ULL
    m5 := l_M.m4 * Bl_mid * J22 * ULL
    m6 := l_M.m6 + DLL * Bl_mid * J21 * l_M.m0
    m7 := l_M.m7 + DLL * Bl_mid * J21 * l_M.m1
    m8 := l_M.m8 + l_M.m4 * Bl_mid * J21 * l_M.m0
    m9 := l_M.m9 + l_M.m4 * Bl_mid * J21 * l_M.m1
    m10 := l_M.m10 + l_M.m5 * Bl_mid * J21 * l_M.m0
    m11 := l_M.m11 + l_M.m5 * Bl_mid * J21 * l_M.m1 }

/-- One recorded invocation of a CrossMap update rule (rule choice plus its
arguments), with a proper partner map as the spec prescribes for a finished
implementation. -/
inductive CrossEvent (b : Nat) (α : Type) where
  | upper (l_M mip1 : MMap b α) (Bu_mid : Mat b α) (J : JMat b α)
  | middle (l_M mip1 : MMap b α) (Bu_mid Bl_mid : Mat b α) (J : JMat b α)
  | lower (l_M mip1 : MMap b α) (Bl_mid : Mat b α) (J : JMat b α)

/-- Apply one recorded CrossMap rule invocation to a CrossMap set. -/
def applyCrossEvent (l_C : CMap b α) : CrossEvent b α → Except PyError (CMap b α)
  | .upper l_M mip1 Bu_mid J => update_crossmap_upper l_M (some mip1) l_C Bu_mid J
  | .middle l_M mip1 Bu_mid Bl_mid J =>
      update_crossmap_middle l_M (some mip1) l_C Bu_mid Bl_mid J
  | .lower l_M mip1 Bl_mid J => update_crossmap_lower l_M (some mip1) l_C Bl_mid J

/-- Constant `1 × 1` block with the given entry (used for concrete runs with
`blocksize = 1`). -/
def cstB (x : α) : Mat 1 α := Matrix.of fun _ _ => x

/-- Constant one-block partition (`nblocks_local = 1`, `blocksize = 1`) with
the given entry. -/
def cstP (x : α) : Part 0 1 α := Matrix.of fun _ _ => x

/-- Concrete partitions for a run with `P = 2` workers, `blocksize = 1`:
the block-tridiagonal matrix `A = [[2, 0], [0, 2]]` split into one diagonal
block per worker. -/
def Kc : Nat → Part 0 1 ℚ := fun _ => cstP 2

/-- The concrete upper-bridge list of `A = [[2, 0], [0, 2]]`: zero blocks. -/
def Bu0 : Nat → Mat 1 ℚ := fun _ => 0

/-- The concrete lower-bridge list of `A = [[2, 0], [0, 2]]`: zero blocks. -/
def Bl0 : Nat → Mat 1 ℚ := fun _ => 0

/-- The local inverse `np.linalg.inv([[2]])` in the model's normal form. -/
def KcInv : Part 0 1 ℚ := (2 : ℚ)⁻¹ • (cstP (2 : ℚ)).adjugate

/-- Concrete U factors for the C3 counterexample: `ULL = [[1]]` and
`DUL = [[2]]` differ, everything else zero. -/
def Uc3 : UFactors 1 ℚ := ⟨0, cstB 1, 0, cstB 2, 0, 0⟩

/-- Concrete all-zero U factors (make the assembled coupling matrix the
identity). -/
def Uzero : UFactors 1 ℚ := ⟨0, 0, 0, 0, 0, 0⟩

/-- Concrete MatrixMap with slot 2 equal to `[[1]]` and all other slots zero
(exposes the in-place reuse of slot 2 in the upper rule). -/
def Mc5u : MMap 1 ℚ := ⟨0, 0, cstB 1, 0, 0, 0, 0, 0, 0, 0, 0, 0⟩

/-- Concrete MatrixMap with slot 5 equal to `[[1]]` and all other slots zero
(exposes the in-place reuse of slot 4 in the lower rule). -/
def Mc5l : MMap 1 ℚ := ⟨0, 0, 0, 0, 0, cstB 1, 0, 0, 0, 0, 0, 0⟩

instance : Unique (Fin (0+1) × Fin 1) where
  default := (0, 0)
  uniq a := by
    obtain ⟨⟨i, hi⟩, ⟨j, hj⟩⟩ := a
    have hi0 : i = 0 := by omega
    have hj0 : j = 0 := by omega
    subst hi0
    subst hj0
    rfl

/-! ### Helper lemmas -/

theorem cstB_mul (x y : α) : cstB x * cstB y = cstB (x * y) := by
  ext i j
  simp [cstB, Matrix.mul_apply]

theorem update_crossmap_eq_error (l_C : CMap b α) (l_M : MMap b α)
    (Bu_mid Bl_mid : Mat b α) (J : JMat b α) (comm_rank middle_process : Nat) :
    update_crossmap l_C l_M Bu_mid Bl_mid J comm_rank middle_process
      = .error .typeError := by
  unfold update_crossmap get_nextprocess_matrixmap
  split
  · rfl
  · split
    · rfl
    · rfl

theorem exists_error_of_ne_ok {T : Type} (x : Except PyError T)
    (h : ∀ t, x ≠ .ok t) : ∃ e, x = .error e := by
  cases x with
  | error e => exact ⟨e, rfl⟩
  | ok t => exact absurd rfl (h t)

theorem update_maps_rank_ne_ok (S : Nat → Except PyError (RankState m b α))
    (Bu_list Bl_list : Nat → Mat b α) (current_step comm_rank : Nat) :
    ∀ t, update_maps_rank S Bu_list Bl_list current_step comm_rank ≠ .ok t := by
  intro t h
  simp only [update_maps_rank, update_crossmap_eq_error] at h
  split at h
  · exact Except.noConfusion h
  · split at h
    · exact Except.noConfusion h
    · split at h
      · exact Except.noConfusion h
      · exact Except.noConfusion h

theorem update_maps_rank_error (S : Nat → Except PyError (RankState m b α))
    (Bu_list Bl_list : Nat → Mat b α) (current_step comm_rank : Nat) :
    ∃ e, update_maps_rank S Bu_list Bl_list current_step comm_rank
      = .error e :=
  exists_error_of_ne_ok _
    (update_maps_rank_ne_ok S Bu_list Bl_list current_step comm_rank)

theorem run_reduction_error (Bu_list Bl_list : Nat → Mat b α) :
    ∀ n : Nat, 1 ≤ n → ∀ (k : Nat) (S : Nat → Except PyError (RankState m b α))
      (r : Nat), ∃ e, run_reduction Bu_list Bl_list k n S r = .error e := by
  intro n
  induction n with
  | zero => omega
  | succ n ih =>
    intro _ k S r
    simp only [run_reduction]
    cases n with
    | zero =>
      simp only [run_reduction]
      exact update_maps_rank_error S Bu_list Bl_list k r
    | succ n' => exact ih (by omega) (k+1) _ r

theorem np_linalg_inv_props {n : Type} [Fintype n] [DecidableEq n]
    (A : Matrix n n α) (h : A.det ≠ 0) :
    np_linalg_inv A = .ok (A.det⁻¹ • A.adjugate) ∧
    (A.det⁻¹ • A.adjugate) * A = 1 ∧ A * (A.det⁻¹ • A.adjugate) = 1 := by
  refine ⟨by simp [np_linalg_inv, h], ?_, ?_⟩
  · rw [smul_mul_assoc, Matrix.adjugate_mul, smul_smul, inv_mul_cancel₀ h,
      one_smul]
  · rw [mul_smul_comm, Matrix.mul_adjugate, smul_smul, inv_mul_cancel₀ h,
      one_smul]

theorem Kc_det (q : Nat) : (Kc q).det = 2 := by
  show (cstP (2:ℚ)).det = 2
  rw [Matrix.det_unique]
  rfl

theorem invert_Kc (q : Nat) : invert_partition (Kc q) = .ok KcInv := by
  show np_linalg_inv (cstP (2:ℚ)) = .ok KcInv
  unfold np_linalg_inv KcInv
  have h : (cstP (2:ℚ)).det = 2 := by rw [Matrix.det_unique]; rfl
  rw [h]
  norm_num

theorem initial_states_Kc (q : Nat) :
    initial_states Kc q
      = .ok ⟨KcInv, initialize_matrixmaps 1 ℚ, initialize_crossmaps 1 ℚ⟩ := by
  unfold initial_states
  rw [invert_Kc]

theorem get_J_zero_bridges (l_U : UFactors b α) :
    get_J l_U 0 0 = .ok ((1 : JMat b α).det⁻¹ • (1 : JMat b α).adjugate) := by
  unfold get_J get_J_assembled np_linalg_inv
  rw [mul_zero, mul_zero, neg_zero, Matrix.fromBlocks_one, if_neg (by simp)]

theorem nat_log2_one : Nat.log2 1 = 0 := by
  rw [Nat.log2_eq_log_two, Nat.log_one_right]

theorem nat_log2_two : Nat.log2 2 = 1 := by
  have h := Nat.log_pow (b := 2) one_lt_two 1
  rw [pow_one] at h
  rw [Nat.log2_eq_log_two]
  exact h

theorem pdiv_localmap_p2_err (r : Nat) :
    pdiv_localmap Kc Bu0 Bl0 2 r = .error .typeError := by
  simp only [pdiv_localmap, nat_log2_two, run_reduction, update_maps_rank,
    initial_states_Kc, get_U_system, Bu0, Bl0, get_J_zero_bridges,
    update_crossmap_eq_error]

theorem pdiv_localmap_p1_general (K : Nat → Part m b α)
    (Bu_list Bl_list : Nat → Mat b α) (r : Nat) (Ki : Part m b α)
    (h : invert_partition (K r) = .ok Ki) :
    pdiv_localmap K Bu_list Bl_list 1 r = .ok (Ki, Bu_list, Bl_list) := by
  simp only [pdiv_localmap, nat_log2_one, run_reduction, initial_states, h]

theorem log2_is_integer_iff (P : Nat) (hP : 1 ≤ P) :
    log2_is_integer P = true ↔ ∃ k, P = 2 ^ k := by
  unfold log2_is_integer
  constructor
  · intro h
    simp only [Bool.and_eq_true, bne_iff_ne, beq_iff_eq] at h
    exact ⟨Nat.log2 P, h.2.symm⟩
  · rintro ⟨k, rfl⟩
    simp only [Bool.and_eq_true, bne_iff_ne, beq_iff_eq]
    refine ⟨pow_ne_zero k (by norm_num), ?_⟩
    rw [Nat.log2_eq_log_two, Nat.log_pow one_lt_two]

theorem three_not_pow_two : ¬ ∃ k, (3:Nat) = 2 ^ k := by
  rintro ⟨k, hk⟩
  match k with
  | 0 => simp at hk
  | 1 => simp at hk
  | k + 2 =>
    have h4 : 4 ≤ 2 ^ (k + 2) := by
      have : (2:Nat) ^ 2 ≤ 2 ^ (k + 2) :=
        Nat.pow_le_pow_right (by norm_num) (by omega)
      simpa using this
    omega

theorem cstB_ne {x y : α} (h : x ≠ y) : cstB x ≠ cstB y :=
  fun he => h (congrFun (congrFun he 0) 0)

theorem crossEvent_frame (l_C : CMap b α) (e : CrossEvent b α) (c' : CMap b α)
    (h : applyCrossEvent l_C e = .ok c') :
    c'.c8 = l_C.c8 ∧ c'.c9 = l_C.c9 ∧ c'.c10 = l_C.c10 ∧ c'.c11 = l_C.c11 := by
  cases e with
  | upper l_M mip1 Bu_mid J =>
    simp only [applyCrossEvent, update_crossmap_upper, Except.ok.injEq] at h
    subst h
    exact ⟨rfl, rfl, rfl, rfl⟩
  | middle l_M mip1 Bu_mid Bl_mid J =>
    simp only [applyCrossEvent, update_crossmap_middle, Except.ok.injEq] at h
    subst h
    exact ⟨rfl, rfl, rfl, rfl⟩
  | lower l_M mip1 Bl_mid J =>
    simp only [applyCrossEvent, update_crossmap_lower, Except.ok.injEq] at h
    subst h
    exact ⟨rfl, rfl, rfl, rfl⟩

theorem crossEvents_keep_zero (events : List (CrossEvent b α)) :
    ∀ l_C : CMap b α, l_C.c8 = 0 → l_C.c9 = 0 → l_C.c10 = 0 → l_C.c11 = 0 →
    ∀ c', events.foldlM applyCrossEvent l_C = .ok c' →
      c'.c8 = 0 ∧ c'.c9 = 0 ∧ c'.c10 = 0 ∧ c'.c11 = 0 := by
  induction events with
  | nil =>
    intro l_C h8 h9 h10 h11 c' h
    simp only [List.foldlM_nil] at h
    cases h
    exact ⟨h8, h9, h10, h11⟩
  | cons e es ih =>
    intro l_C h8 h9 h10 h11 c' h
    rw [List.foldlM_cons] at h
    cases happ : applyCrossEvent l_C e with
    | error e' =>
      rw [happ] at h
      exact Except.noConfusion h
    | ok c1 =>
      rw [happ] at h
      rw [show ((Except.ok c1 : Except PyError (CMap b α)) >>=
        fun c => es.foldlM applyCrossEvent c) = es.foldlM applyCrossEvent c1
        from rfl] at h
      obtain ⟨g8, g9, g10, g11⟩ := crossEvent_frame l_C e c1 happ
      exact ih c1 (g8.trans h8) (g9.trans h9) (g10.trans h10) (g11.trans h11)
        c' h

/-! ### Claim theorems -/

/-- C1 (evaluation at the failing input): for the invertible block-tridiagonal
matrix `A = [[2, 0], [0, 2]]` with `blocksize = 1` split over `P = 2` workers,
`pdiv_localmap` raises `TypeError` during the first reduction step on both
ranks, so no corrected diagonal blocks are ever produced, let alone blocks
equal to the dense inverse's diagonal blocks. -/
theorem c1_run_raises_not_diagonal_blocks :
    pdiv_localmap Kc Bu0 Bl0 2 0 = .error .typeError ∧
    pdiv_localmap Kc Bu0 Bl0 2 1 = .error .typeError :=
  ⟨pdiv_localmap_p2_err 0, pdiv_localmap_p2_err 1⟩

/-- C2: `get_nextprocess_matrixmap` returns `None`; consequently
`update_crossmap` raises `TypeError` for every rank, every J factor and every
middle process; hence for every `P ≥ 2` the run of `pdiv_localmap` ends in an
exception on every rank, while the `P = 1` run performs zero reduction steps
and terminates normally with the locally inverted partition. -/
theorem c2_crossmap_always_raises (m b : Nat) (α : Type) [Field α]
    [DecidableEq α] :
    (∀ (l_M : MMap b α) (middle_process : Nat),
        get_nextprocess_matrixmap l_M middle_process = none) ∧
    (∀ (l_C : CMap b α) (l_M : MMap b α) (Bu_mid Bl_mid : Mat b α)
        (J : JMat b α) (comm_rank middle_process : Nat),
        update_crossmap l_C l_M Bu_mid Bl_mid J comm_rank middle_process
          = .error .typeError) ∧
    (∀ (K_locals : Nat → Part m b α) (Bu_list Bl_list : Nat → Mat b α)
        (P r : Nat), 2 ≤ P →
        ∃ e, pdiv_localmap K_locals Bu_list Bl_list P r = .error e) ∧
    (∀ (K_locals : Nat → Part m b α) (Bu_list Bl_list : Nat → Mat b α)
        (r : Nat) (Ki : Part m b α),
        invert_partition (K_locals r) = .ok Ki →
        pdiv_localmap K_locals Bu_list Bl_list 1 r = .ok (Ki, Bu_list, Bl_list)) := by
  refine ⟨fun _ _ => rfl,
    fun l_C l_M Bu_mid Bl_mid J r mid =>
      update_crossmap_eq_error l_C l_M Bu_mid Bl_mid J r mid,
    ?_,
    fun K Bu Bl r Ki h => pdiv_localmap_p1_general K Bu Bl r Ki h⟩
  intro K Bu Bl P r hP
  have hlog : 1 ≤ Nat.log2 P := by
    rw [Nat.log2_eq_log_two]
    exact Nat.log_pos one_lt_two hP
  obtain ⟨e, he⟩ :=
    run_reduction_error Bu Bl (Nat.log2 P) hlog 1 (initial_states K) r
  exact ⟨e, by simp only [pdiv_localmap, he]⟩

/-- Witness for C2: at the concrete input `Kc`, `P = 2` raises on rank 0 and
`P = 1` returns the local inverse unchanged. -/
theorem c2_witness :
    (∃ e, pdiv_localmap Kc Bu0 Bl0 2 0 = .error e) ∧
    pdiv_localmap Kc Bu0 Bl0 1 0 = .ok (KcInv, Bu0, Bl0) :=
  ⟨(c2_crossmap_always_raises 0 1 ℚ).2.2.1 Kc Bu0 Bl0 2 0 (by norm_num),
   (c2_crossmap_always_raises 0 1 ℚ).2.2.2 Kc Bu0 Bl0 0 KcInv (invert_Kc 0)⟩

/-- C3 counterexample: the coupling matrix assembled by `get_J` uses
`l_U[3] = DUL` and `l_U[2] = ULR`, not ULL and DUR; at the concrete input with
`ULL = [[1]]`, `DUL = [[2]]`, `Bridge_lower = [[1]]`, `Bridge_upper = 0`, the
claimed block layout fails (the upper-right block is `[[-2]]`, not
`[[-1]] = -ULL @ Bridge_lower`). -/
theorem c3_counterexample :
    ¬ ((get_J_assembled Uc3 0 (cstB 1)).toBlocks₁₂ = -(Uc3.ULL * cstB 1) ∧
       (get_J_assembled Uc3 0 (cstB 1)).toBlocks₂₁ = -(Uc3.DUR * 0)) := by
  rintro ⟨h, -⟩
  simp only [get_J_assembled, Matrix.toBlocks_fromBlocks₁₂] at h
  have h' : Uc3.DUL * cstB 1 = Uc3.ULL * cstB 1 := neg_inj.mp h
  rw [show Uc3.DUL = cstB 2 from rfl, show Uc3.ULL = cstB 1 from rfl,
    cstB_mul, cstB_mul] at h'
  exact cstB_ne (by norm_num) h'

/-- C3 amended: the coupling matrix assembled by `get_J` has identity blocks
on the diagonal, upper-right block `- DUL @ Bridge_lower` (with
`DUL = l_U[3]`, the corrected upper-left block of the lower partition) and
lower-left block `- ULR @ Bridge_upper` (with `ULR = l_U[2]`, the corrected
lower-right block of the upper partition); whenever that matrix is
nonsingular, `get_J` returns its dense `2·blocksize × 2·blocksize` inverse. -/
theorem c3_coupling_amended (b : Nat) (α : Type) [Field α] [DecidableEq α]
    (l_U : UFactors b α) (Bu_mid Bl_mid : Mat b α)
    (h : (get_J_assembled l_U Bu_mid Bl_mid).det ≠ 0) :
    (get_J_assembled l_U Bu_mid Bl_mid).toBlocks₁₁ = 1 ∧
    (get_J_assembled l_U Bu_mid Bl_mid).toBlocks₁₂ = -(l_U.DUL * Bl_mid) ∧
    (get_J_assembled l_U Bu_mid Bl_mid).toBlocks₂₁ = -(l_U.ULR * Bu_mid) ∧
    (get_J_assembled l_U Bu_mid Bl_mid).toBlocks₂₂ = 1 ∧
    ∃ J, get_J l_U Bu_mid Bl_mid = .ok J ∧
      J * get_J_assembled l_U Bu_mid Bl_mid = 1 ∧
      get_J_assembled l_U Bu_mid Bl_mid * J = 1 := by
  obtain ⟨hok, hl, hr⟩ :=
    np_linalg_inv_props (get_J_assembled l_U Bu_mid Bl_mid) h
  exact ⟨Matrix.toBlocks_fromBlocks₁₁ _ _ _ _,
    Matrix.toBlocks_fromBlocks₁₂ _ _ _ _,
    Matrix.toBlocks_fromBlocks₂₁ _ _ _ _,
    Matrix.toBlocks_fromBlocks₂₂ _ _ _ _,
    _, hok, hl, hr⟩

/-- Witness for C3 (amended): with all U factors zero the assembled coupling
matrix is the identity, which is invertible, and `get_J` returns its inverse. -/
theorem c3_witness :
    ∃ J, get_J Uzero (0 : Mat 1 ℚ) 0 = .ok J ∧
      J * get_J_assembled Uzero 0 0 = 1 ∧ get_J_assembled Uzero 0 0 * J = 1 :=
  (c3_coupling_amended 1 ℚ Uzero 0 0
    (by simp [get_J_assembled, Matrix.fromBlocks_one])).2.2.2.2

/-- C4: a worker count that is not a power of two is rejected with a
`ValueError` by the validation that runs before any partitioning,
communication or numeric work: the explicit check of `pdiv`
(pdiv_parallel.py lines 178-179) and the driver-side
`check_multiprocessing` (spec-modelled, its module is not under src/). -/
theorem c4_power_of_two_validation :
    ∀ P : Nat, 1 ≤ P → (¬ ∃ k, P = 2 ^ k) →
      pdiv P = .error .valueError ∧
      check_multiprocessing P = .error .valueError := by
  intro P hP h
  have hb : log2_is_integer P = false := by
    cases hx : log2_is_integer P with
    | false => rfl
    | true => exact absurd ((log2_is_integer_iff P hP).mp hx) h
  exact ⟨by simp [pdiv, hb], by simp [check_multiprocessing, hb]⟩

/-- Witness for C4: `P = 3` is rejected. -/
theorem c4_witness :
    pdiv 3 = .error .valueError ∧
    check_multiprocessing 3 = .error .valueError :=
  c4_power_of_two_validation 3 (by norm_num) three_not_pow_two

/-- C5: the matrix-map rules consume slot values already overwritten earlier
in the same invocation: in `update_matrixmap_upper` the increments to slots 4,
5, 8, 9, 10 and 11 read the new values of slots 2, 3, 6 and 7 (made explicit
by the characterizations below, where the new slot-2 value
`l_M.m2 * Bu * J11 * DUR` appears inside the increments), in
`update_matrixmap_lower` the assignment to slot 5 reads the slot-4 value
assigned on the preceding line, and at a concrete input the in-place rules
differ from the two-phase variants that evaluate every right-hand side from
the pre-update map values. -/
theorem c5_inplace_reuse (b : Nat) (α : Type) [Field α] [DecidableEq α] :
    (∀ (l_M : MMap b α) (UUR DUR ULL DLL Bu_mid Bl_mid J11 J12 J22 : Mat b α),
      (update_matrixmap_upper l_M UUR DUR ULL DLL Bu_mid Bl_mid J11 J12 J22).m4
        = l_M.m4 + (l_M.m2 * Bu_mid * J11 * DUR) * Bu_mid * J12 * ULL ∧
      (update_matrixmap_upper l_M UUR DUR ULL DLL Bu_mid Bl_mid J11 J12 J22).m5
        = l_M.m5 + (l_M.m3 * Bu_mid * J11 * DUR) * Bu_mid * J12 * ULL ∧
      (update_matrixmap_upper l_M UUR DUR ULL DLL Bu_mid Bl_mid J11 J12 J22).m8
        = l_M.m8 + (l_M.m2 * Bu_mid * J11 * DUR) * Bu_mid * J12
            * (DLL * Bl_mid * J22 * l_M.m6) ∧
      (update_matrixmap_upper l_M UUR DUR ULL DLL Bu_mid Bl_mid J11 J12 J22).m9
        = l_M.m9 + (l_M.m2 * Bu_mid * J11 * DUR) * Bu_mid * J12
            * (DLL * Bl_mid * J22 * l_M.m7) ∧
      (update_matrixmap_upper l_M UUR DUR ULL DLL Bu_mid Bl_mid J11 J12 J22).m10
        = l_M.m10 + (l_M.m3 * Bu_mid * J11 * DUR) * Bu_mid * J12
            * (DLL * Bl_mid * J22 * l_M.m6) ∧
      (update_matrixmap_upper l_M UUR DUR ULL DLL Bu_mid Bl_mid J11 J12 J22).m11
        = l_M.m11 + (l_M.m3 * Bu_mid * J11 * DUR) * Bu_mid * J12
            * (DLL * Bl_mid * J22 * l_M.m7)) ∧
    (∀ (l_M : MMap b α) (UUR DUR ULL DLL Bu_mid Bl_mid J11 J21 J22 : Mat b α),
      (update_matrixmap_lower l_M UUR DUR ULL DLL Bu_mid Bl_mid J11 J21 J22).m5
        = (l_M.m5 * Bl_mid * J22 * ULL) * Bl_mid * J22 * ULL) ∧
    (update_matrixmap_upper Mc5u 0 (cstB 2) (cstB 1) 0 (cstB 1) 0 (cstB 1)
        (cstB 1) 0).m4
      ≠ (update_matrixmap_upper_prestate Mc5u 0 (cstB 2) (cstB 1) 0 (cstB 1) 0
        (cstB 1) (cstB 1) 0).m4 ∧
    (update_matrixmap_lower Mc5l 0 0 (cstB 1) 0 0 (cstB 1) 0 0 (cstB 1)).m5
      ≠ (update_matrixmap_lower_prestate Mc5l 0 0 (cstB 1) 0 0 (cstB 1) 0 0
        (cstB 1)).m5 := by
  refine ⟨fun l_M UUR DUR ULL DLL Bu_mid Bl_mid J11 J12 J22 =>
      ⟨rfl, rfl, rfl, rfl, rfl, rfl⟩,
    fun l_M UUR DUR ULL DLL Bu_mid Bl_mid J11 J21 J22 => rfl, ?_, ?_⟩
  · have hx : (update_matrixmap_upper Mc5u 0 (cstB 2) (cstB 1) 0 (cstB 1) 0
        (cstB 1) (cstB 1) 0).m4 = cstB (2:ℚ) := by
      show (0 : Mat 1 ℚ) + (cstB 1 * cstB 1 * cstB 1 * cstB 2) * cstB 1
        * cstB 1 * cstB 1 = cstB 2
      simp [cstB_mul]
    have hy : (update_matrixmap_upper_prestate Mc5u 0 (cstB 2) (cstB 1) 0
        (cstB 1) 0 (cstB 1) (cstB 1) 0).m4 = cstB (1:ℚ) := by
      show (0 : Mat 1 ℚ) + cstB 1 * cstB 1 * cstB 1 * cstB 1 = cstB 1
      simp [cstB_mul]
    rw [hx, hy]
    exact cstB_ne (by norm_num)
  · have hx : (update_matrixmap_lower Mc5l 0 0 (cstB 1) 0 0 (cstB 1) 0 0
        (cstB 1)).m5 = cstB (1:ℚ) := by
      show (cstB (1:ℚ) * cstB 1 * cstB 1 * cstB 1) * cstB 1 * cstB 1 * cstB 1
        = cstB 1
      simp [cstB_mul]
    have hy : (update_matrixmap_lower_prestate Mc5l 0 0 (cstB 1) 0 0 (cstB 1)
        0 0 (cstB 1)).m5 = 0 := by
      show (0 : Mat 1 ℚ) * cstB 1 * cstB 1 * cstB 1 = 0
      simp
    rw [hx, hy]
    intro hcontra
    have h00 := congrFun (congrFun hcontra 0) 0
    simp [cstB] at h00

/-- C6: in `update_crossmap_lower` the increment added to slot 1 is the
identical expression to the increment added to slot 0
(`M5 @ Bl_mid @ J21 @ M1_ip1`), so slots 0 and 1 receive equal contributions
for every input on which the rule completes. -/
theorem c6_crossmap_lower_duplicate (b : Nat) (α : Type) [Field α]
    [DecidableEq α] :
    ∀ (l_M mip1 : MMap b α) (l_C : CMap b α) (Bl_mid : Mat b α)
      (J : JMat b α),
      ∃ c', update_crossmap_lower l_M (some mip1) l_C Bl_mid J = .ok c' ∧
        c'.c0 = l_C.c0 + l_M.m4 * Bl_mid * J.toBlocks₂₁ * mip1.m0 ∧
        c'.c1 = l_C.c1 + l_M.m4 * Bl_mid * J.toBlocks₂₁ * mip1.m0 ∧
        c'.c1 - l_C.c1 = c'.c0 - l_C.c0 := by
  refine fun l_M mip1 l_C Bl_mid J => ⟨_, rfl, rfl, rfl, ?_⟩
  show (l_C.c1 + _) - l_C.c1 = (l_C.c0 + _) - l_C.c0
  rw [add_sub_cancel_left, add_sub_cancel_left]

/-- C7 (frame fact contradicted by the docstring): whenever `pdiv_localmap`
returns at all, the two bridge lists in the result are exactly the bridge
lists passed in — the entire lists are returned, but no bridge in them has
been updated by the run (nothing ever writes to them; `produce_partition` is
commented out). -/
theorem c7_bridge_lists_returned (m b : Nat) (α : Type) [Field α]
    [DecidableEq α] :
    ∀ (K_locals : Nat → Part m b α) (Bu_list Bl_list : Nat → Mat b α)
      (comm_size comm_rank : Nat)
      (res : Part m b α × (Nat → Mat b α) × (Nat → Mat b α)),
      pdiv_localmap K_locals Bu_list Bl_list comm_size comm_rank = .ok res →
      res.2.1 = Bu_list ∧ res.2.2 = Bl_list := by
  intro K Bu Bl P r res h
  simp only [pdiv_localmap] at h
  split at h
  · exact Except.noConfusion h
  · injection h with h2
    subst h2
    exact ⟨rfl, rfl⟩

/-- Witness for C7: the bridge lists returned by the `P = 1` run on the
concrete input are the input lists. -/
theorem c7_witness :
    ((KcInv, Bu0, Bl0) : Part 0 1 ℚ × (Nat → Mat 1 ℚ) × (Nat → Mat 1 ℚ)).2.1
        = Bu0 ∧
    ((KcInv, Bu0, Bl0) : Part 0 1 ℚ × (Nat → Mat 1 ℚ) × (Nat → Mat 1 ℚ)).2.2
        = Bl0 :=
  c7_bridge_lists_returned 0 1 ℚ Kc Bu0 Bl0 1 0 (KcInv, Bu0, Bl0)
    (pdiv_localmap_p1_general Kc Bu0 Bl0 0 KcInv (invert_Kc 0))

/-- C8: the CrossMap update rules write only slots 0 through 7; slots 8
through 11 are returned untouched by each of the three rules, so starting
from the all-zero seed of `initialize_crossmaps` they stay zero across any
sequence of rule invocations. -/
theorem c8_crossmap_slots_8_to_11 (b : Nat) (α : Type) [Field α]
    [DecidableEq α] :
    (∀ (events : List (CrossEvent b α)) (c' : CMap b α),
        events.foldlM applyCrossEvent (initialize_crossmaps b α) = .ok c' →
        c'.c8 = 0 ∧ c'.c9 = 0 ∧ c'.c10 = 0 ∧ c'.c11 = 0) ∧
    (∀ (l_M mip1 : MMap b α) (l_C : CMap b α) (Bu_mid Bl_mid : Mat b α)
        (J : JMat b α),
        (update_crossmap_upper l_M (some mip1) l_C Bu_mid J).map
            (fun c => (c.c8, c.c9, c.c10, c.c11))
          = .ok (l_C.c8, l_C.c9, l_C.c10, l_C.c11) ∧
        (update_crossmap_middle l_M (some mip1) l_C Bu_mid Bl_mid J).map
            (fun c => (c.c8, c.c9, c.c10, c.c11))
          = .ok (l_C.c8, l_C.c9, l_C.c10, l_C.c11) ∧
        (update_crossmap_lower l_M (some mip1) l_C Bl_mid J).map
            (fun c => (c.c8, c.c9, c.c10, c.c11))
          = .ok (l_C.c8, l_C.c9, l_C.c10, l_C.c11)) := by
  refine ⟨?_, fun _ _ _ _ _ _ => ⟨rfl, rfl, rfl⟩⟩
  intro events c' h
  exact crossEvents_keep_zero events (initialize_crossmaps b α)
    rfl rfl rfl rfl c' h

/-- Witness for C8: the empty run keeps the seeded slots 8-11 at zero. -/
theorem c8_witness :
    (initialize_crossmaps 1 ℚ).c8 = 0 ∧ (initialize_crossmaps 1 ℚ).c9 = 0 ∧
    (initialize_crossmaps 1 ℚ).c10 = 0 ∧ (initialize_crossmaps 1 ℚ).c11 = 0 :=
  (c8_crossmap_slots_8_to_11 1 ℚ).1 [] (initialize_crossmaps 1 ℚ) rfl

/-- C9: with `P = 1` worker the reduction loop runs zero steps
(`int(math.log2(1)) = 0`); `pdiv_localmap` returns exactly the Local
Inverter's output together with the unchanged bridge lists, and after the
(empty) loop the MatrixMap and CrossMap sets are still exactly the freshly
initialized seeds, never consulted or mutated. -/
theorem c9_single_process_identity (m b : Nat) (α : Type) [Field α]
    [DecidableEq α] :
    ∀ (K_locals : Nat → Part m b α) (Bu_list Bl_list : Nat → Mat b α)
      (r : Nat) (Ki : Part m b α),
      invert_partition (K_locals r) = .ok Ki →
      pdiv_localmap K_locals Bu_list Bl_list 1 r = .ok (Ki, Bu_list, Bl_list) ∧
      run_reduction Bu_list Bl_list 1 (Nat.log2 1) (initial_states K_locals) r
        = .ok ⟨Ki, initialize_matrixmaps b α, initialize_crossmaps b α⟩ := by
  intro K Bu Bl r Ki h
  refine ⟨pdiv_localmap_p1_general K Bu Bl r Ki h, ?_⟩
  simp only [nat_log2_one, run_reduction, initial_states, h]

/-- Witness for C9: the concrete `P = 1` run returns the local inverse and
the untouched seed maps. -/
theorem c9_witness :
    pdiv_localmap Kc Bu0 Bl0 1 0 = .ok (KcInv, Bu0, Bl0) ∧
    run_reduction Bu0 Bl0 1 (Nat.log2 1) (initial_states Kc) 0
      = .ok ⟨KcInv, initialize_matrixmaps 1 ℚ, initialize_crossmaps 1 ℚ⟩ :=
  c9_single_process_identity 0 1 ℚ Kc Bu0 Bl0 0 KcInv (invert_Kc 0)

/-- C10: for every blocksize and dtype, the MatrixMap seed has identity
blocks at indices 0, 3, 4 and 7 and zero blocks at the other eight indices,
the CrossMap seed is all-zero in its 12 entries, and both initializers are
deterministic pure functions of blocksize and dtype (two calls with equal
arguments give equal maps). -/
theorem c10_initializers (b : Nat) (α : Type) [Field α] :
    ((initialize_matrixmaps b α).m0 = 1 ∧ (initialize_matrixmaps b α).m3 = 1 ∧
     (initialize_matrixmaps b α).m4 = 1 ∧ (initialize_matrixmaps b α).m7 = 1) ∧
    ((initialize_matrixmaps b α).m1 = 0 ∧ (initialize_matrixmaps b α).m2 = 0 ∧
     (initialize_matrixmaps b α).m5 = 0 ∧ (initialize_matrixmaps b α).m6 = 0 ∧
     (initialize_matrixmaps b α).m8 = 0 ∧ (initialize_matrixmaps b α).m9 = 0 ∧
     (initialize_matrixmaps b α).m10 = 0 ∧
     (initialize_matrixmaps b α).m11 = 0) ∧
    ((initialize_crossmaps b α).c0 = 0 ∧ (initialize_crossmaps b α).c1 = 0 ∧
     (initialize_crossmaps b α).c2 = 0 ∧ (initialize_crossmaps b α).c3 = 0 ∧
     (initialize_crossmaps b α).c4 = 0 ∧ (initialize_crossmaps b α).c5 = 0 ∧
     (initialize_crossmaps b α).c6 = 0 ∧ (initialize_crossmaps b α).c7 = 0 ∧
     (initialize_crossmaps b α).c8 = 0 ∧ (initialize_crossmaps b α).c9 = 0 ∧
     (initialize_crossmaps b α).c10 = 0 ∧
     (initialize_crossmaps b α).c11 = 0) ∧
    initialize_matrixmaps b α = initialize_matrixmaps b α ∧
    initialize_crossmaps b α = initialize_crossmaps b α :=
  ⟨⟨rfl, rfl, rfl, rfl⟩,
   ⟨rfl, rfl, rfl, rfl, rfl, rfl, rfl, rfl⟩,
   ⟨rfl, rfl, rfl, rfl, rfl, rfl, rfl, rfl, rfl, rfl, rfl, rfl⟩,
   rfl, rfl⟩

end SINV
